import Mathlib

set_option maxRecDepth 100000

/-!
Verification of the spark_chain_tge fundraising program
(src/programs/spark_chain_tge/src/lib.rs), shallowly embedded in Lean.

Machine integers (u64 / u128 / i64) are modelled as `Nat` / `Int`; a
Rust `checked_add` / `checked_mul` is an explicit bound test against
2^64 / 2^128, an unchecked `+=` in the source is modelled as wrapping
addition modulo 2^64 (release-build semantics), and an `as u64` cast of
a `u128` value is reduction modulo 2^64.  Byte strings (signatures,
public keys, proof messages, instruction payloads) are `List Nat`.
Fallible instructions return `Except ErrorCode`; the Solana runtime's
transaction rollback (a failed instruction commits no account writes)
is modelled by `stepChain`, which keeps the pre-state on error.
-/

/-- Error enum of the program, mirroring `ErrorCode` in lib.rs. -/
inductive ErrorCode where
  | DistributionNotActive
  | AlreadyClaimed
  | NoCommitments
  | Unauthorized
  | CommitPeriodEnded
  | CommitPeriodNotEnded
  | InsufficientBalance
  | TargetSolReached
  | InsufficientSolCommitment
  | WithdrawConditionsNotMet
  | BackendInactive
  | InvalidNonce
  | ProofExpired
  | InvalidSignature
  | Ed25519VerificationFailed
  | InvalidTokenAccount
  | CalculationOverflow
deriving DecidableEq

/-- Solana public keys are 32-byte strings; modelled as lists of bytes. -/
abbrev Pubkey := List Nat

/-- Fixed-point scale constant `PRECISION_FACTOR` (10^9) from lib.rs. -/
def PRECISION_FACTOR : Nat := 1000000000

/-- Truncating `as u64` cast / wrapping u64 arithmetic. -/
def wrap64 (n : Nat) : Nat := n % 2 ^ 64

/-- Model of `u64::checked_add(..).ok_or(CalculationOverflow)`. -/
def checkedAdd64 (a b : Nat) : Except ErrorCode Nat :=
  if a + b < 2 ^ 64 then Except.ok (a + b) else Except.error ErrorCode.CalculationOverflow

/-- Model of `u128::checked_mul(..).ok_or(CalculationOverflow)`. -/
def checkedMul128 (a b : Nat) : Except ErrorCode Nat :=
  if a * b < 2 ^ 128 then Except.ok (a * b) else Except.error ErrorCode.CalculationOverflow

/-- Model of Anchor's `require!(cond, err)`: continue iff `cond` holds. -/
def requireCheck (c : Prop) [Decidable c] (e : ErrorCode) : Except ErrorCode Unit :=
  if c then Except.ok () else Except.error e

deriving instance DecidableEq for Except

/-- Account `DistributionState` from lib.rs. -/
structure DistributionState where
  authority : Pubkey
  total_token_pool : Nat
  total_score : Nat
  is_active : Bool
  commit_end_time : Int
  rate : Nat
  target_raise_sol : Nat
  total_sol_raised : Nat
  bump : Nat
deriving DecidableEq

/-- Account `UserCommitment` from lib.rs. -/
structure UserCommitment where
  user : Pubkey
  points : Nat
  sol_amount : Nat
  score : Nat
  tokens_claimed : Bool
deriving DecidableEq

/-- Account `BackendAuthority` from lib.rs. -/
structure BackendAuthority where
  authority : Pubkey
  backend_pubkey : Pubkey
  is_active : Bool
  nonce_counter : Nat
deriving DecidableEq

/-- The ASCII bytes of the domain tag `POINTS_DEDUCTION_PROOF:`. -/
def proofTag : List Nat := "POINTS_DEDUCTION_PROOF:".data.map Char.toNat

/-- `u64::to_le_bytes`: eight little-endian bytes of `n`. -/
def le64 (n : Nat) : List Nat := (List.range 8).map fun i => n / 256 ^ i % 256

/-- `i64::to_le_bytes`: two's-complement little-endian bytes of `e`. -/
def le64Int (e : Int) : List Nat := le64 (e % (2 : Int) ^ 64).toNat

/-- `create_proof_message` from lib.rs: tag ‖ user ‖ points ‖ nonce ‖ expiry. -/
def createProofMessage (user : Pubkey) (points nonce : Nat) (expiry : Int) : List Nat :=
  proofTag ++ user ++ le64 points ++ le64 nonce ++ le64Int expiry

/-- One instruction of the transaction, as read from the instructions sysvar. -/
structure Instruction where
  program_id : Pubkey
  data : List Nat
deriving DecidableEq

/-- The Ed25519 native program id (an arbitrary fixed designated key). -/
def ED25519_ID : Pubkey := List.replicate 32 237

/-- The backwards scan `for i in (0..current_index).rev()` in
`verify_ed25519_signature`: first instruction below `currentIndex`
whose program id is the Ed25519 program, scanning downwards. -/
def scanBack (ixs : List Instruction) : Nat → Option Instruction
  | 0 => none
  | i + 1 =>
    match ixs.get? i with
    | some ix => if ix.program_id = ED25519_ID then some ix else scanBack ixs i
    | none => scanBack ixs i

/-- `u16::from_le_bytes([data[0], data[1]])`. -/
def readU16 (data : List Nat) : Nat := data.getD 0 0 + 256 * data.getD 1 0

/-- `verify_ed25519_signature` from lib.rs: locate the nearest preceding
Ed25519-program instruction and compare its payload fields (pubkey at
bytes 16..48, signature at 48..112, message from 112) byte-for-byte
against the expected triple. -/
def verifyEd25519Signature (signature msg pubkey : List Nat)
    (ixs : List Instruction) (currentIndex : Nat) : Except ErrorCode Unit :=
  match scanBack ixs currentIndex with
  | none => Except.error ErrorCode.Ed25519VerificationFailed
  | some ix =>
    if ix.data.length < 2 then Except.error ErrorCode.Ed25519VerificationFailed
    else if readU16 ix.data ≠ 1 then Except.error ErrorCode.Ed25519VerificationFailed
    else if ix.data.length < 112 then Except.error ErrorCode.Ed25519VerificationFailed
    else if (ix.data.drop 48).take 64 ≠ signature then
      Except.error ErrorCode.Ed25519VerificationFailed
    else if (ix.data.drop 16).take 32 ≠ pubkey then
      Except.error ErrorCode.Ed25519VerificationFailed
    else if ix.data.drop 112 ≠ msg then Except.error ErrorCode.Ed25519VerificationFailed
    else Except.ok ()

/-- The `required_sol` block of `commit_resources`:
`(points as u128).checked_mul(rate) / PRECISION_FACTOR as u64`. -/
def requiredSol (points rate : Nat) : Except ErrorCode Nat :=
  checkedMul128 points rate >>= fun product =>
  Except.ok (wrap64 (product / PRECISION_FACTOR))

/-- The `token_amount` block of `claim_tokens`:
`((pool as u128).checked_mul(score) / total_score) as u64`.
Only ever invoked after the `total_score > 0` guard. -/
def claimAmount (pool score total_score : Nat) : Except ErrorCode Nat :=
  checkedMul128 pool score >>= fun numerator =>
  Except.ok (wrap64 (numerator / total_score))

/-- Arguments of the `commit_resources` instruction. -/
structure CommitArgs where
  user : Pubkey
  points : Nat
  sol_amount : Nat
  backend_signature : List Nat
  nonce : Nat
  expiry : Int
deriving DecidableEq

/-- Execution context of a `commit_resources` call: the clock and the
instructions sysvar (instruction list plus current index). -/
structure CommitEnv where
  now : Int
  instructions : List Instruction
  currentIndex : Nat
deriving DecidableEq

/-- `commit_resources` from lib.rs.  The SOL system transfer from the
user to the program is an external CPI and is modelled as succeeding;
`score` in the source is `let score = sol_amount`, inlined here.
Note the source updates `points` and `sol_amount` with unchecked `+=`
(modelled as wrapping) while `score` and the two global counters use
`checked_add`, and unconditionally assigns `tokens_claimed = false`. -/
def commitResources (dist : DistributionState) (backend : BackendAuthority)
    (uc : UserCommitment) (a : CommitArgs) (env : CommitEnv) :
    Except ErrorCode (DistributionState × BackendAuthority × UserCommitment) :=
  requireCheck (backend.is_active = true) ErrorCode.BackendInactive >>= fun _ =>
  requireCheck (backend.nonce_counter < a.nonce) ErrorCode.InvalidNonce >>= fun _ =>
  requireCheck (env.now < a.expiry) ErrorCode.ProofExpired >>= fun _ =>
  verifyEd25519Signature a.backend_signature
      (createProofMessage a.user a.points a.nonce a.expiry)
      backend.backend_pubkey env.instructions env.currentIndex >>= fun _ =>
  requireCheck (dist.is_active = true) ErrorCode.DistributionNotActive >>= fun _ =>
  requireCheck (env.now < dist.commit_end_time) ErrorCode.CommitPeriodEnded >>= fun _ =>
  requireCheck (dist.total_sol_raised < dist.target_raise_sol)
      ErrorCode.TargetSolReached >>= fun _ =>
  requiredSol a.points dist.rate >>= fun required_sol =>
  requireCheck (required_sol ≤ a.sol_amount) ErrorCode.InsufficientSolCommitment >>= fun _ =>
  checkedAdd64 uc.score a.sol_amount >>= fun newScore =>
  checkedAdd64 dist.total_score a.sol_amount >>= fun newTotalScore =>
  checkedAdd64 dist.total_sol_raised a.sol_amount >>= fun newTotalSol =>
  let uc' : UserCommitment :=
    { user := a.user
      points := wrap64 (uc.points + a.points)
      sol_amount := wrap64 (uc.sol_amount + a.sol_amount)
      score := newScore
      tokens_claimed := false }
  let dist' : DistributionState :=
    { dist with total_score := newTotalScore, total_sol_raised := newTotalSol }
  let backend' : BackendAuthority := { backend with nonce_counter := a.nonce }
  let dist'' : DistributionState :=
    if dist'.target_raise_sol ≤ dist'.total_sol_raised then
      { dist' with is_active := false }
    else dist'
  Except.ok (dist'', backend', uc')

/-- `claim_tokens` from lib.rs.  The SPL token transfer of the computed
amount is an external CPI, modelled as succeeding; the paid amount is
returned alongside the updated user record. -/
def claimTokens (dist : DistributionState) (uc : UserCommitment) :
    Except ErrorCode (UserCommitment × Nat) :=
  requireCheck (uc.tokens_claimed = false) ErrorCode.AlreadyClaimed >>= fun _ =>
  requireCheck (0 < dist.total_score) ErrorCode.NoCommitments >>= fun _ =>
  claimAmount dist.total_token_pool uc.score dist.total_score >>= fun token_amount =>
  Except.ok ({ uc with tokens_claimed := true }, token_amount)

/-- `fund_vault` from lib.rs: authority-gated; the token transfer is an
external CPI; the pool counter is overwritten by plain assignment. -/
def fundVault (dist : DistributionState) (signer : Pubkey) (amount : Nat) :
    Except ErrorCode DistributionState :=
  requireCheck (signer = dist.authority) ErrorCode.Unauthorized >>= fun _ =>
  Except.ok { dist with total_token_pool := amount }

/-- Execution context of `withdraw_sol`: clock and lamport balances. -/
structure WithdrawEnv where
  now : Int
  lamports : Nat
  rent_exempt_minimum : Nat
deriving DecidableEq

/-- `withdraw_sol` from lib.rs.  Lamport movement is external; no field
of `DistributionState` is written. -/
def withdrawSol (dist : DistributionState) (signer : Pubkey) (amount : Nat)
    (env : WithdrawEnv) : Except ErrorCode DistributionState :=
  requireCheck (signer = dist.authority) ErrorCode.Unauthorized >>= fun _ =>
  requireCheck (dist.commit_end_time ≤ env.now ∨
      dist.target_raise_sol ≤ dist.total_sol_raised)
      ErrorCode.WithdrawConditionsNotMet >>= fun _ =>
  requireCheck (amount + env.rent_exempt_minimum ≤ env.lamports)
      ErrorCode.InsufficientBalance >>= fun _ =>
  Except.ok dist

/-- `set_commit_end_time` from lib.rs. -/
def setCommitEndTime (dist : DistributionState) (signer : Pubkey)
    (new_end_time : Int) : Except ErrorCode DistributionState :=
  requireCheck (signer = dist.authority) ErrorCode.Unauthorized >>= fun _ =>
  Except.ok { dist with commit_end_time := new_end_time }

/-- `update_backend_authority` from lib.rs. -/
def updateBackendAuthority (backend : BackendAuthority) (signer : Pubkey)
    (active : Bool) : Except ErrorCode BackendAuthority :=
  requireCheck (signer = backend.authority) ErrorCode.Unauthorized >>= fun _ =>
  Except.ok { backend with is_active := active }

/-- `update_backend_pubkey` from lib.rs. -/
def updateBackendPubkey (backend : BackendAuthority) (signer : Pubkey)
    (new_backend_pubkey : Pubkey) : Except ErrorCode BackendAuthority :=
  requireCheck (signer = backend.authority) ErrorCode.Unauthorized >>= fun _ =>
  Except.ok { backend with backend_pubkey := new_backend_pubkey }

/-- The fully zeroed user record that Anchor's `init_if_needed` hands to
`commit_resources` when the user commits for the first time. -/
def freshUser : UserCommitment :=
  { user := List.replicate 32 0, points := 0, sol_amount := 0, score := 0,
    tokens_claimed := false }

/-- Lookup of a user's commitment record by key. -/
def findUser : List (Pubkey × UserCommitment) → Pubkey → Option UserCommitment
  | [], _ => none
  | p :: rest, u => if p.1 = u then some p.2 else findUser rest u

/-- Store of a user's commitment record: replace the first entry for the
key, append a new entry when absent. -/
def updateUser : List (Pubkey × UserCommitment) → Pubkey → UserCommitment →
    List (Pubkey × UserCommitment)
  | [], u, v => [(u, v)]
  | p :: rest, u, v => if p.1 = u then (u, v) :: rest else p :: updateUser rest u v

/-- Global on-chain state: the two singleton ledgers plus the per-user
commitment records. -/
structure Chain where
  dist : DistributionState
  backend : BackendAuthority
  users : List (Pubkey × UserCommitment)
deriving DecidableEq

/-- Runtime-level failure: a program error, or a missing per-user account
(rejected by the runtime before the program body runs). -/
inductive ExecError where
  | program (e : ErrorCode)
  | accountMissing
deriving DecidableEq

/-- The post-deployment instructions of the program (the two one-time
account initializers are the initial state, see `initChain`). -/
inductive Op where
  | commit (a : CommitArgs) (env : CommitEnv)
  | claim (u : Pubkey)
  | fund (signer : Pubkey) (amount : Nat)
  | withdraw (signer : Pubkey) (amount : Nat) (env : WithdrawEnv)
  | setEndTime (signer : Pubkey) (t : Int)
  | updBackendActive (signer : Pubkey) (b : Bool)
  | updBackendPubkey (signer : Pubkey) (pk : Pubkey)

/-- Run one instruction against the global state, producing either the
post-state of all written accounts or the failure. -/
def execOp (c : Chain) : Op → Except ExecError Chain
  | Op.commit a env =>
    let uc := (findUser c.users a.user).getD freshUser
    match commitResources c.dist c.backend uc a env with
    | Except.error e => Except.error (ExecError.program e)
    | Except.ok (d', b', u') =>
      Except.ok { dist := d', backend := b', users := updateUser c.users a.user u' }
  | Op.claim u =>
    match findUser c.users u with
    | none => Except.error ExecError.accountMissing
    | some uc =>
      match claimTokens c.dist uc with
      | Except.error e => Except.error (ExecError.program e)
      | Except.ok (uc', _amt) => Except.ok { c with users := updateUser c.users u uc' }
  | Op.fund signer amount =>
    match fundVault c.dist signer amount with
    | Except.error e => Except.error (ExecError.program e)
    | Except.ok d' => Except.ok { c with dist := d' }
  | Op.withdraw signer amount env =>
    match withdrawSol c.dist signer amount env with
    | Except.error e => Except.error (ExecError.program e)
    | Except.ok d' => Except.ok { c with dist := d' }
  | Op.setEndTime signer t =>
    match setCommitEndTime c.dist signer t with
    | Except.error e => Except.error (ExecError.program e)
    | Except.ok d' => Except.ok { c with dist := d' }
  | Op.updBackendActive signer b =>
    match updateBackendAuthority c.backend signer b with
    | Except.error e => Except.error (ExecError.program e)
    | Except.ok b' => Except.ok { c with backend := b' }
  | Op.updBackendPubkey signer pk =>
    match updateBackendPubkey c.backend signer pk with
    | Except.error e => Except.error (ExecError.program e)
    | Except.ok b' => Except.ok { c with backend := b' }

/-- Solana transaction semantics: a failed instruction commits none of
its account writes, so the chain state is unchanged on error. -/
def stepChain (c : Chain) (op : Op) : Chain :=
  match execOp c op with
  | Except.ok c' => c'
  | Except.error _ => c

/-- Run a sequence of instructions under the rollback semantics. -/
def stepsChain (c : Chain) (ops : List Op) : Chain := ops.foldl stepChain c

/-- Deployment parameters consumed by the two one-time initializers. -/
structure InitParams where
  authority : Pubkey
  commit_end_time : Int
  rate : Nat
  target_raise_sol : Nat
  bump : Nat
  backend_authority : Pubkey
  backend_pubkey : Pubkey

/-- The state after the two `init` instructions of lib.rs ran once:
all counters zero, both active flags set, nonce counter zero. -/
def initChain (p : InitParams) : Chain :=
  { dist :=
      { authority := p.authority, total_token_pool := 0, total_score := 0,
        is_active := true, commit_end_time := p.commit_end_time, rate := p.rate,
        target_raise_sol := p.target_raise_sol, total_sol_raised := 0, bump := p.bump }
    backend :=
      { authority := p.backend_authority, backend_pubkey := p.backend_pubkey,
        is_active := true, nonce_counter := 0 }
    users := [] }

/-- States reachable from deployment by any instruction sequence. -/
inductive Reachable (p : InitParams) : Chain → Prop where
  | init : Reachable p (initChain p)
  | step {c : Chain} (op : Op) : Reachable p c → Reachable p (stepChain c op)

/-- Sum of all users' recorded SOL contributions. -/
def sumSol (users : List (Pubkey × UserCommitment)) : Nat :=
  (users.map fun q => q.2.sol_amount).sum

/-- Sum of all users' recorded scores. -/
def sumScore (users : List (Pubkey × UserCommitment)) : Nat :=
  (users.map fun q => q.2.score).sum

/-- The ledger-sum invariant: the global counters are exactly the sums of
the per-user counters, every user's score equals their cumulative SOL,
and the global counters are in u64 range. -/
def ChainInv (c : Chain) : Prop :=
  c.dist.total_sol_raised = sumSol c.users ∧
  c.dist.total_score = sumScore c.users ∧
  (∀ q ∈ c.users, q.2.score = q.2.sol_amount) ∧
  c.dist.total_sol_raised < 2 ^ 64 ∧
  c.dist.total_score < 2 ^ 64

/-- Concrete user key used by the worked examples. -/
def pkUser : Pubkey := List.replicate 32 0

/-- Concrete backend service key used by the worked examples. -/
def pkBackend : Pubkey := List.replicate 32 3

/-- Concrete admin authority key used by the worked examples. -/
def pkAuthority : Pubkey := List.replicate 32 1

/-- Concrete 64-byte signature used by the worked examples. -/
def sigDemo : List Nat := List.replicate 64 5

/-- Payload of an Ed25519-program instruction in the single-signature
layout read by `verify_ed25519_signature`: signature count 1, then 14
bytes of offset metadata, the public key at bytes 16..48, the
signature at 48..112, the message from byte 112 on. -/
def mkIxData (pk sig msg : List Nat) : List Nat :=
  [1, 0] ++ List.replicate 14 0 ++ pk ++ sig ++ msg

/-- A well-formed companion Ed25519-program instruction for
`pkUser`/`pkBackend`/`sigDemo` and the given proof fields. -/
def mkIx (points nonce : Nat) (expiry : Int) : Instruction :=
  { program_id := ED25519_ID
    data := mkIxData pkBackend sigDemo (createProofMessage pkUser points nonce expiry) }

/-- Execution context holding exactly the companion instruction of
`mkIx`, with the committing instruction at index 1 and clock 0. -/
def mkEnv (points nonce : Nat) (expiry : Int) : CommitEnv :=
  { now := 0, instructions := [mkIx points nonce expiry], currentIndex := 1 }

/-- Concrete backend-authority record used by the worked examples. -/
def backendDemo : BackendAuthority :=
  { authority := pkAuthority, backend_pubkey := pkBackend,
    is_active := true, nonce_counter := 0 }

/-- Concrete distribution ledger used by the worked examples. -/
def distDemo : DistributionState :=
  { authority := pkAuthority, total_token_pool := 1000, total_score := 50,
    is_active := true, commit_end_time := 10, rate := 0,
    target_raise_sol := 100, total_sol_raised := 50, bump := 0 }

/-- Concrete chain state used by the worked examples. -/
def chainDemo : Chain := { dist := distDemo, backend := backendDemo, users := [] }

/-- Concrete deployment parameters used by the worked examples. -/
def initParamsDemo : InitParams :=
  { authority := pkAuthority, commit_end_time := 10, rate := 0,
    target_raise_sol := 100, bump := 0, backend_authority := pkAuthority,
    backend_pubkey := pkBackend }

/-- An Ed25519-program instruction whose payload declares a signature
count of 2 but whose pubkey/signature/message fields are laid out at
the standard single-signature offsets. -/
def ixWrongCount : Instruction :=
  { program_id := ED25519_ID
    data := [2, 0] ++ List.replicate 14 0 ++ pkBackend ++ sigDemo
      ++ createProofMessage pkUser 0 1 5 }

theorem ok_bind {α β : Type} (a : α) (f : α → Except ErrorCode β) :
    (Except.ok a >>= f) = f a := rfl

theorem except_bind_ok {α β : Type} {x : Except ErrorCode α}
    {f : α → Except ErrorCode β} {b : β} :
    (x >>= f) = Except.ok b ↔ ∃ a, x = Except.ok a ∧ f a = Except.ok b := by
  cases x <;> simp [Bind.bind, Except.bind]

theorem except_bind_error {α β : Type} {x : Except ErrorCode α}
    {f : α → Except ErrorCode β} {e : ErrorCode} :
    (x >>= f) = Except.error e ↔
      x = Except.error e ∨ ∃ a, x = Except.ok a ∧ f a = Except.error e := by
  cases x <;> simp [Bind.bind, Except.bind]

theorem requireCheck_ok {c : Prop} [Decidable c] {e : ErrorCode} {u : Unit} :
    requireCheck c e = Except.ok u ↔ c := by
  unfold requireCheck; split <;> simp_all

theorem requireCheck_true {c : Prop} [Decidable c] (e : ErrorCode) (h : c) :
    requireCheck c e = Except.ok () := by
  unfold requireCheck; simp [h]

theorem requireCheck_false {c : Prop} [Decidable c] (e : ErrorCode) (h : ¬ c) :
    requireCheck c e = Except.error e := by
  unfold requireCheck; simp [h]

theorem requireCheck_error {c : Prop} [Decidable c] {e e' : ErrorCode} :
    requireCheck c e = Except.error e' ↔ ¬ c ∧ e' = e := by
  unfold requireCheck; split <;> simp_all
  exact eq_comm

theorem checkedAdd64_ok {a b r : Nat} :
    checkedAdd64 a b = Except.ok r ↔ a + b < 2 ^ 64 ∧ r = a + b := by
  unfold checkedAdd64; split <;> simp_all
  exact eq_comm

theorem checkedAdd64_overflow {a b : Nat} (h : 2 ^ 64 ≤ a + b) :
    checkedAdd64 a b = Except.error ErrorCode.CalculationOverflow := by
  unfold checkedAdd64
  exact if_neg (Nat.not_lt.mpr h)

theorem checkedMul128_ok {a b r : Nat} :
    checkedMul128 a b = Except.ok r ↔ a * b < 2 ^ 128 ∧ r = a * b := by
  unfold checkedMul128; split <;> simp_all
  exact eq_comm

theorem checkedMul128_overflow {a b : Nat} (h : 2 ^ 128 ≤ a * b) :
    checkedMul128 a b = Except.error ErrorCode.CalculationOverflow := by
  unfold checkedMul128
  exact if_neg (Nat.not_lt.mpr h)

theorem requiredSol_ok {points rate r : Nat} :
    requiredSol points rate = Except.ok r ↔
      points * rate < 2 ^ 128 ∧ r = wrap64 (points * rate / PRECISION_FACTOR) := by
  unfold requiredSol
  rw [except_bind_ok]
  constructor
  · rintro ⟨p, hp, hr⟩
    rcases checkedMul128_ok.mp hp with ⟨hlt, rfl⟩
    cases hr
    exact ⟨hlt, rfl⟩
  · rintro ⟨hlt, rfl⟩
    exact ⟨points * rate, checkedMul128_ok.mpr ⟨hlt, rfl⟩, rfl⟩

theorem claimAmount_ok {pool score total r : Nat} :
    claimAmount pool score total = Except.ok r ↔
      pool * score < 2 ^ 128 ∧ r = wrap64 (pool * score / total) := by
  unfold claimAmount
  rw [except_bind_ok]
  constructor
  · rintro ⟨p, hp, hr⟩
    rcases checkedMul128_ok.mp hp with ⟨hlt, rfl⟩
    cases hr
    exact ⟨hlt, rfl⟩
  · rintro ⟨hlt, rfl⟩
    exact ⟨pool * score, checkedMul128_ok.mpr ⟨hlt, rfl⟩, rfl⟩

/-- Full success characterization of `commit_resources`: the call
succeeds exactly when every guard passes and every checked addition
stays in u64 range, and then the post-state is as written in the
source: cumulative user counters, cumulative global counters, nonce
ratchet, and the target latch. -/
theorem commitResources_ok_iff {dist : DistributionState} {backend : BackendAuthority}
    {uc : UserCommitment} {a : CommitArgs} {env : CommitEnv}
    {d2 : DistributionState} {b2 : BackendAuthority} {u2 : UserCommitment} :
    commitResources dist backend uc a env = Except.ok (d2, b2, u2) ↔
      backend.is_active = true ∧
      backend.nonce_counter < a.nonce ∧
      env.now < a.expiry ∧
      verifyEd25519Signature a.backend_signature
        (createProofMessage a.user a.points a.nonce a.expiry)
        backend.backend_pubkey env.instructions env.currentIndex = Except.ok () ∧
      dist.is_active = true ∧
      env.now < dist.commit_end_time ∧
      dist.total_sol_raised < dist.target_raise_sol ∧
      a.points * dist.rate < 2 ^ 128 ∧
      wrap64 (a.points * dist.rate / PRECISION_FACTOR) ≤ a.sol_amount ∧
      uc.score + a.sol_amount < 2 ^ 64 ∧
      dist.total_score + a.sol_amount < 2 ^ 64 ∧
      dist.total_sol_raised + a.sol_amount < 2 ^ 64 ∧
      u2 = { user := a.user
             points := wrap64 (uc.points + a.points)
             sol_amount := wrap64 (uc.sol_amount + a.sol_amount)
             score := uc.score + a.sol_amount
             tokens_claimed := false } ∧
      b2 = { backend with nonce_counter := a.nonce } ∧
      d2 = (if dist.target_raise_sol ≤ dist.total_sol_raised + a.sol_amount then
              { dist with total_score := dist.total_score + a.sol_amount,
                          total_sol_raised := dist.total_sol_raised + a.sol_amount,
                          is_active := false }
            else
              { dist with total_score := dist.total_score + a.sol_amount,
                          total_sol_raised := dist.total_sol_raised + a.sol_amount }) := by
  unfold commitResources
  constructor
  · intro h
    rw [except_bind_ok] at h
    rcases h with ⟨pu1, h1, h⟩
    have c1 := requireCheck_ok.mp h1
    rw [except_bind_ok] at h
    rcases h with ⟨pu2, h2, h⟩
    have c2 := requireCheck_ok.mp h2
    rw [except_bind_ok] at h
    rcases h with ⟨pu3, h3, h⟩
    have c3 := requireCheck_ok.mp h3
    rw [except_bind_ok] at h
    rcases h with ⟨pu4, h4, h⟩
    rw [except_bind_ok] at h
    rcases h with ⟨pu5, h5, h⟩
    have c5 := requireCheck_ok.mp h5
    rw [except_bind_ok] at h
    rcases h with ⟨pu6, h6, h⟩
    have c6 := requireCheck_ok.mp h6
    rw [except_bind_ok] at h
    rcases h with ⟨pu7, h7, h⟩
    have c7 := requireCheck_ok.mp h7
    rw [except_bind_ok] at h
    rcases h with ⟨req, h8, h⟩
    rcases requiredSol_ok.mp h8 with ⟨c8, rfl⟩
    rw [except_bind_ok] at h
    rcases h with ⟨pu9, h9, h⟩
    have c9 := requireCheck_ok.mp h9
    rw [except_bind_ok] at h
    rcases h with ⟨ns, h10, h⟩
    rcases checkedAdd64_ok.mp h10 with ⟨c10, rfl⟩
    rw [except_bind_ok] at h
    rcases h with ⟨nts, h11, h⟩
    rcases checkedAdd64_ok.mp h11 with ⟨c11, rfl⟩
    rw [except_bind_ok] at h
    rcases h with ⟨ntsr, h12, h⟩
    rcases checkedAdd64_ok.mp h12 with ⟨c12, rfl⟩
    simp only [Except.ok.injEq, Prod.mk.injEq] at h
    obtain ⟨hd, hb, hu⟩ := h
    refine ⟨c1, c2, c3, ?_, c5, c6, c7, c8, c9, c10, c11, c12, hu.symm, hb.symm, hd.symm⟩
    cases pu4; exact h4
  · rintro ⟨c1, c2, c3, c4, c5, c6, c7, c8, c9, c10, c11, c12, hu, hb, hd⟩
    rw [requireCheck_true _ c1, ok_bind, requireCheck_true _ c2, ok_bind,
      requireCheck_true _ c3, ok_bind, c4, ok_bind,
      requireCheck_true _ c5, ok_bind, requireCheck_true _ c6, ok_bind,
      requireCheck_true _ c7, ok_bind]
    have h8 : requiredSol a.points dist.rate =
        Except.ok (wrap64 (a.points * dist.rate / PRECISION_FACTOR)) :=
      requiredSol_ok.mpr ⟨c8, rfl⟩
    rw [h8, ok_bind, requireCheck_true _ c9, ok_bind]
    have h10 : checkedAdd64 uc.score a.sol_amount = Except.ok (uc.score + a.sol_amount) :=
      checkedAdd64_ok.mpr ⟨c10, rfl⟩
    have h11 : checkedAdd64 dist.total_score a.sol_amount =
        Except.ok (dist.total_score + a.sol_amount) := checkedAdd64_ok.mpr ⟨c11, rfl⟩
    have h12 : checkedAdd64 dist.total_sol_raised a.sol_amount =
        Except.ok (dist.total_sol_raised + a.sol_amount) := checkedAdd64_ok.mpr ⟨c12, rfl⟩
    rw [h10, ok_bind, h11, ok_bind, h12, ok_bind]
    subst hu hb hd
    rfl

theorem claimTokens_ok_iff {dist : DistributionState} {uc : UserCommitment}
    {u2 : UserCommitment} {amt : Nat} :
    claimTokens dist uc = Except.ok (u2, amt) ↔
      uc.tokens_claimed = false ∧ 0 < dist.total_score ∧
      dist.total_token_pool * uc.score < 2 ^ 128 ∧
      amt = wrap64 (dist.total_token_pool * uc.score / dist.total_score) ∧
      u2 = { uc with tokens_claimed := true } := by
  unfold claimTokens
  constructor
  · intro h
    rw [except_bind_ok] at h
    rcases h with ⟨pu1, h1, h⟩
    have c1 := requireCheck_ok.mp h1
    rw [except_bind_ok] at h
    rcases h with ⟨pu2, h2, h⟩
    have c2 := requireCheck_ok.mp h2
    rw [except_bind_ok] at h
    rcases h with ⟨ta, h3, h⟩
    rcases claimAmount_ok.mp h3 with ⟨c3, rfl⟩
    simp only [Except.ok.injEq, Prod.mk.injEq] at h
    exact ⟨c1, c2, c3, h.2.symm, h.1.symm⟩
  · rintro ⟨c1, c2, c3, rfl, rfl⟩
    rw [requireCheck_true _ c1, ok_bind, requireCheck_true _ c2, ok_bind,
      claimAmount_ok.mpr ⟨c3, rfl⟩, ok_bind]

theorem claimTokens_already_claimed {dist : DistributionState} {uc : UserCommitment}
    (h : uc.tokens_claimed = true) :
    claimTokens dist uc = Except.error ErrorCode.AlreadyClaimed := by
  unfold claimTokens
  rw [requireCheck_false _ (by simp [h])]
  rfl

/-- The backwards scan finds exactly the first Ed25519-program
instruction below the current index (not required to be adjacent):
`some ix` iff `ix` sits at some index `i < n`, is addressed to the
Ed25519 program, and no Ed25519 instruction sits strictly between `i`
and `n`. -/
theorem scanBack_some_iff (ixs : List Instruction) (n : Nat) (ix : Instruction) :
    scanBack ixs n = some ix ↔
      ∃ i, i < n ∧ ixs.get? i = some ix ∧ ix.program_id = ED25519_ID ∧
        ∀ j, i < j → j < n → ∀ ixj, ixs.get? j = some ixj →
          ixj.program_id ≠ ED25519_ID := by
  induction n with
  | zero => simp [scanBack]
  | succ m ih =>
    rw [scanBack]
    cases hm : ixs.get? m with
    | none =>
      simp only []
      rw [ih]
      constructor
      · rintro ⟨i, hi, hget, hprog, hmax⟩
        refine ⟨i, Nat.lt_succ_of_lt hi, hget, hprog, ?_⟩
        intro j hij hjm ixj hj
        rcases Nat.lt_succ_iff_lt_or_eq.mp hjm with hlt | rfl
        · exact hmax j hij hlt ixj hj
        · rw [hm] at hj; cases hj
      · rintro ⟨i, hi, hget, hprog, hmax⟩
        have him : i ≠ m := by
          rintro rfl; rw [hm] at hget; cases hget
        have hi' : i < m := by omega
        exact ⟨i, hi', hget, hprog, fun j hij hjm ixj hj =>
          hmax j hij (Nat.lt_succ_of_lt hjm) ixj hj⟩
    | some ixm =>
      simp only []
      by_cases hp : ixm.program_id = ED25519_ID
      · rw [if_pos hp]
        constructor
        · intro h
          cases h
          refine ⟨m, Nat.lt_succ_self m, hm, hp, ?_⟩
          intro j hij hjm
          omega
        · rintro ⟨i, hi, hget, hprog, hmax⟩
          have him : i = m := by
            by_contra hne
            have hi' : i < m := by omega
            exact hmax m hi' (Nat.lt_succ_self m) ixm hm hp
          subst him
          rw [hm] at hget
          cases hget
          rfl
      · rw [if_neg hp, ih]
        constructor
        · rintro ⟨i, hi, hget, hprog, hmax⟩
          refine ⟨i, Nat.lt_succ_of_lt hi, hget, hprog, ?_⟩
          intro j hij hjm ixj hj
          rcases Nat.lt_succ_iff_lt_or_eq.mp hjm with hlt | rfl
          · exact hmax j hij hlt ixj hj
          · rw [hm] at hj; cases hj; exact hp
        · rintro ⟨i, hi, hget, hprog, hmax⟩
          have him : i ≠ m := by
            rintro rfl
            rw [hm] at hget; cases hget; exact hp hprog
          have hi' : i < m := by omega
          exact ⟨i, hi', hget, hprog, fun j hij hjm ixj hj =>
            hmax j hij (Nat.lt_succ_of_lt hjm) ixj hj⟩

/-- Success characterization of `verify_ed25519_signature`: the located
instruction exists, its payload is long enough, declares exactly one
signature, and its pubkey / signature / message fields equal the
expected values byte-for-byte. -/
theorem verifyEd25519_ok_iff {sig msg pk : List Nat} {ixs : List Instruction}
    {cur : Nat} :
    verifyEd25519Signature sig msg pk ixs cur = Except.ok () ↔
      ∃ ix, scanBack ixs cur = some ix ∧ 112 ≤ ix.data.length ∧
        readU16 ix.data = 1 ∧ (ix.data.drop 48).take 64 = sig ∧
        (ix.data.drop 16).take 32 = pk ∧ ix.data.drop 112 = msg := by
  unfold verifyEd25519Signature
  cases hscan : scanBack ixs cur with
  | none => simp
  | some ix =>
    simp only [Option.some.injEq]
    constructor
    · intro h
      split at h
      · cases h
      · split at h
        · cases h
        · split at h
          · cases h
          · split at h
            · cases h
            · split at h
              · cases h
              · split at h
                · cases h
                · refine ⟨ix, rfl, by omega, by omega, by tauto, by tauto, by tauto⟩
    · rintro ⟨ix', rfl, hlen, hone, hsig, hpk, hmsg⟩
      rw [if_neg (by omega), if_neg (by simp [hone]), if_neg (by omega),
        if_neg (by simp [hsig]), if_neg (by simp [hpk]), if_neg (by simp [hmsg])]

/-- Field-level consequences of a successful `commit_resources` call,
in the form used by the invariant and monotonicity proofs. -/
theorem commitResources_ok_fields {dist : DistributionState} {backend : BackendAuthority}
    {uc : UserCommitment} {a : CommitArgs} {env : CommitEnv}
    {d2 : DistributionState} {b2 : BackendAuthority} {u2 : UserCommitment}
    (h : commitResources dist backend uc a env = Except.ok (d2, b2, u2)) :
    d2.total_score = dist.total_score + a.sol_amount ∧
    d2.total_sol_raised = dist.total_sol_raised + a.sol_amount ∧
    d2.total_token_pool = dist.total_token_pool ∧
    d2.target_raise_sol = dist.target_raise_sol ∧
    b2 = { backend with nonce_counter := a.nonce } ∧
    u2.score = uc.score + a.sol_amount ∧
    u2.sol_amount = wrap64 (uc.sol_amount + a.sol_amount) ∧
    u2.tokens_claimed = false ∧
    uc.score + a.sol_amount < 2 ^ 64 ∧
    dist.total_score + a.sol_amount < 2 ^ 64 ∧
    dist.total_sol_raised + a.sol_amount < 2 ^ 64 ∧
    dist.is_active = true ∧
    backend.nonce_counter < a.nonce ∧
    dist.total_sol_raised < dist.target_raise_sol ∧
    (d2.is_active = false ↔ dist.target_raise_sol ≤ dist.total_sol_raised + a.sol_amount) := by
  rcases commitResources_ok_iff.mp h with
    ⟨_c1, c2, _c3, _c4, c5, _c6, c7, _c8, _c9, c10, c11, c12, hu, hb, hd⟩
  subst hu hb
  by_cases hlat : dist.target_raise_sol ≤ dist.total_sol_raised + a.sol_amount
  · rw [if_pos hlat] at hd
    subst hd
    refine ⟨rfl, rfl, rfl, rfl, rfl, rfl, rfl, rfl, c10, c11, c12, c5, c2, c7, ?_⟩
    simpa using hlat
  · rw [if_neg hlat] at hd
    subst hd
    refine ⟨rfl, rfl, rfl, rfl, rfl, rfl, rfl, rfl, c10, c11, c12, c5, c2, c7, ?_⟩
    simp only [c5]
    constructor
    · intro hfalse; cases hfalse
    · intro hle; exact absurd hle hlat

theorem execOp_commit_ok {c : Chain} {a : CommitArgs} {env : CommitEnv} {c' : Chain}
    (h : execOp c (Op.commit a env) = Except.ok c') :
    ∃ d' b' u',
      commitResources c.dist c.backend ((findUser c.users a.user).getD freshUser) a env
        = Except.ok (d', b', u') ∧
      c' = { dist := d', backend := b', users := updateUser c.users a.user u' } := by
  simp only [execOp] at h
  rcases hcr : commitResources c.dist c.backend ((findUser c.users a.user).getD freshUser)
      a env with e | ⟨d', b', u'⟩
  · rw [hcr] at h; cases h
  · rw [hcr] at h
    simp only [Except.ok.injEq] at h
    exact ⟨d', b', u', rfl, h.symm⟩

theorem execOp_claim_ok {c : Chain} {u : Pubkey} {c' : Chain}
    (h : execOp c (Op.claim u) = Except.ok c') :
    ∃ uc uc' amt, findUser c.users u = some uc ∧
      claimTokens c.dist uc = Except.ok (uc', amt) ∧
      c' = { c with users := updateUser c.users u uc' } := by
  simp only [execOp] at h
  rcases hf : findUser c.users u with _ | uc
  · rw [hf] at h; cases h
  · simp only [hf] at h
    rcases hcl : claimTokens c.dist uc with e | ⟨uc', amt⟩
    · rw [hcl] at h; cases h
    · simp only [hcl, Except.ok.injEq] at h
      exact ⟨uc, uc', amt, rfl, hcl, h.symm⟩

theorem fundVault_ok_iff {dist : DistributionState} {s : Pubkey} {amt : Nat}
    {d' : DistributionState} :
    fundVault dist s amt = Except.ok d' ↔
      s = dist.authority ∧ d' = { dist with total_token_pool := amt } := by
  unfold fundVault
  constructor
  · intro h
    rw [except_bind_ok] at h
    rcases h with ⟨pu, h1, h2⟩
    simp only [Except.ok.injEq] at h2
    exact ⟨requireCheck_ok.mp h1, h2.symm⟩
  · rintro ⟨hs, rfl⟩
    rw [requireCheck_true _ hs, ok_bind]

theorem withdrawSol_ok_iff {dist : DistributionState} {s : Pubkey} {amt : Nat}
    {env : WithdrawEnv} {d' : DistributionState} :
    withdrawSol dist s amt env = Except.ok d' ↔
      s = dist.authority ∧
      (dist.commit_end_time ≤ env.now ∨ dist.target_raise_sol ≤ dist.total_sol_raised) ∧
      amt + env.rent_exempt_minimum ≤ env.lamports ∧ d' = dist := by
  unfold withdrawSol
  constructor
  · intro h
    rw [except_bind_ok] at h
    rcases h with ⟨pu1, h1, h⟩
    rw [except_bind_ok] at h
    rcases h with ⟨pu2, h2, h⟩
    rw [except_bind_ok] at h
    rcases h with ⟨pu3, h3, h⟩
    simp only [Except.ok.injEq] at h
    exact ⟨requireCheck_ok.mp h1, requireCheck_ok.mp h2, requireCheck_ok.mp h3, h.symm⟩
  · rintro ⟨h1, h2, h3, rfl⟩
    rw [requireCheck_true _ h1, ok_bind, requireCheck_true _ h2, ok_bind,
      requireCheck_true _ h3, ok_bind]

theorem setCommitEndTime_ok_iff {dist : DistributionState} {s : Pubkey} {t : Int}
    {d' : DistributionState} :
    setCommitEndTime dist s t = Except.ok d' ↔
      s = dist.authority ∧ d' = { dist with commit_end_time := t } := by
  unfold setCommitEndTime
  constructor
  · intro h
    rw [except_bind_ok] at h
    rcases h with ⟨pu, h1, h2⟩
    simp only [Except.ok.injEq] at h2
    exact ⟨requireCheck_ok.mp h1, h2.symm⟩
  · rintro ⟨hs, rfl⟩
    rw [requireCheck_true _ hs, ok_bind]

theorem updateBackendAuthority_ok_iff {backend : BackendAuthority} {s : Pubkey}
    {act : Bool} {b' : BackendAuthority} :
    updateBackendAuthority backend s act = Except.ok b' ↔
      s = backend.authority ∧ b' = { backend with is_active := act } := by
  unfold updateBackendAuthority
  constructor
  · intro h
    rw [except_bind_ok] at h
    rcases h with ⟨pu, h1, h2⟩
    simp only [Except.ok.injEq] at h2
    exact ⟨requireCheck_ok.mp h1, h2.symm⟩
  · rintro ⟨hs, rfl⟩
    rw [requireCheck_true _ hs, ok_bind]

theorem updateBackendPubkey_ok_iff {backend : BackendAuthority} {s : Pubkey}
    {pk : Pubkey} {b' : BackendAuthority} :
    updateBackendPubkey backend s pk = Except.ok b' ↔
      s = backend.authority ∧ b' = { backend with backend_pubkey := pk } := by
  unfold updateBackendPubkey
  constructor
  · intro h
    rw [except_bind_ok] at h
    rcases h with ⟨pu, h1, h2⟩
    simp only [Except.ok.injEq] at h2
    exact ⟨requireCheck_ok.mp h1, h2.symm⟩
  · rintro ⟨hs, rfl⟩
    rw [requireCheck_true _ hs, ok_bind]

theorem execOp_fund_ok {c : Chain} {s : Pubkey} {amt : Nat} {c' : Chain}
    (h : execOp c (Op.fund s amt) = Except.ok c') :
    c' = { c with dist := { c.dist with total_token_pool := amt } } := by
  simp only [execOp] at h
  rcases hf : fundVault c.dist s amt with e | d'
  · rw [hf] at h; cases h
  · simp only [hf, Except.ok.injEq] at h
    rcases fundVault_ok_iff.mp hf with ⟨_, rfl⟩
    exact h.symm

theorem execOp_withdraw_ok {c : Chain} {s : Pubkey} {amt : Nat} {env : WithdrawEnv}
    {c' : Chain} (h : execOp c (Op.withdraw s amt env) = Except.ok c') : c' = c := by
  simp only [execOp] at h
  rcases hf : withdrawSol c.dist s amt env with e | d'
  · rw [hf] at h; cases h
  · simp only [hf, Except.ok.injEq] at h
    rcases withdrawSol_ok_iff.mp hf with ⟨_, _, _, rfl⟩
    rw [← h]

theorem execOp_setEndTime_ok {c : Chain} {s : Pubkey} {t : Int} {c' : Chain}
    (h : execOp c (Op.setEndTime s t) = Except.ok c') :
    c' = { c with dist := { c.dist with commit_end_time := t } } := by
  simp only [execOp] at h
  rcases hf : setCommitEndTime c.dist s t with e | d'
  · rw [hf] at h; cases h
  · simp only [hf, Except.ok.injEq] at h
    rcases setCommitEndTime_ok_iff.mp hf with ⟨_, rfl⟩
    exact h.symm

theorem execOp_updBackendActive_ok {c : Chain} {s : Pubkey} {b : Bool} {c' : Chain}
    (h : execOp c (Op.updBackendActive s b) = Except.ok c') :
    c' = { c with backend := { c.backend with is_active := b } } := by
  simp only [execOp] at h
  rcases hf : updateBackendAuthority c.backend s b with e | b'
  · rw [hf] at h; cases h
  · simp only [hf, Except.ok.injEq] at h
    rcases updateBackendAuthority_ok_iff.mp hf with ⟨_, rfl⟩
    exact h.symm

theorem execOp_updBackendPubkey_ok {c : Chain} {s : Pubkey} {pk : Pubkey} {c' : Chain}
    (h : execOp c (Op.updBackendPubkey s pk) = Except.ok c') :
    c' = { c with backend := { c.backend with backend_pubkey := pk } } := by
  simp only [execOp] at h
  rcases hf : updateBackendPubkey c.backend s pk with e | b'
  · rw [hf] at h; cases h
  · simp only [hf, Except.ok.injEq] at h
    rcases updateBackendPubkey_ok_iff.mp hf with ⟨_, rfl⟩
    exact h.symm

theorem findUser_mem {users : List (Pubkey × UserCommitment)} {u : Pubkey}
    {w : UserCommitment} (h : findUser users u = some w) : (u, w) ∈ users := by
  induction users with
  | nil => cases h
  | cons p rest ih =>
    rw [findUser] at h
    by_cases hk : p.1 = u
    · rw [if_pos hk] at h
      cases h
      subst hk
      exact List.mem_cons_self _ _
    · rw [if_neg hk] at h
      exact List.mem_cons_of_mem _ (ih h)

theorem mem_updateUser {users : List (Pubkey × UserCommitment)} {u : Pubkey}
    {v : UserCommitment} {q : Pubkey × UserCommitment}
    (h : q ∈ updateUser users u v) : q = (u, v) ∨ q ∈ users := by
  induction users with
  | nil => simpa [updateUser] using h
  | cons p rest ih =>
    rw [updateUser] at h
    by_cases hk : p.1 = u
    · rw [if_pos hk] at h
      rcases List.mem_cons.mp h with h1 | h2
      · exact Or.inl h1
      · exact Or.inr (List.mem_cons_of_mem _ h2)
    · rw [if_neg hk] at h
      rcases List.mem_cons.mp h with h1 | h2
      · exact Or.inr (h1 ▸ List.mem_cons_self _ _)
      · rcases ih h2 with h3 | h4
        · exact Or.inl h3
        · exact Or.inr (List.mem_cons_of_mem _ h4)

theorem sum_update_found (f : UserCommitment → Nat) :
    ∀ (users : List (Pubkey × UserCommitment)) (u : Pubkey) (w v : UserCommitment),
    findUser users u = some w →
    ((updateUser users u v).map fun q => f q.2).sum + f w
      = (users.map fun q => f q.2).sum + f v := by
  intro users
  induction users with
  | nil => intro u w v h; cases h
  | cons p rest ih =>
    intro u w v h
    rw [findUser] at h
    rw [updateUser]
    by_cases hk : p.1 = u
    · rw [if_pos hk] at h ⊢
      cases h
      simp only [List.map_cons, List.sum_cons]
      omega
    · rw [if_neg hk] at h ⊢
      simp only [List.map_cons, List.sum_cons]
      have := ih u w v h
      omega

theorem sum_update_notfound (f : UserCommitment → Nat) :
    ∀ (users : List (Pubkey × UserCommitment)) (u : Pubkey) (v : UserCommitment),
    findUser users u = none →
    ((updateUser users u v).map fun q => f q.2).sum
      = (users.map fun q => f q.2).sum + f v := by
  intro users
  induction users with
  | nil => intro u v _; simp [updateUser]
  | cons p rest ih =>
    intro u v h
    rw [findUser] at h
    rw [updateUser]
    by_cases hk : p.1 = u
    · rw [if_pos hk] at h; cases h
    · rw [if_neg hk] at h ⊢
      simp only [List.map_cons, List.sum_cons]
      have := ih u v h
      omega

/-- The nonce counter never decreases under any instruction. -/
theorem stepChain_nonce_mono (c : Chain) (op : Op) :
    c.backend.nonce_counter ≤ (stepChain c op).backend.nonce_counter := by
  unfold stepChain
  rcases hexec : execOp c op with e | c'
  · exact Nat.le_refl _
  · cases op with
    | commit a env =>
      rcases execOp_commit_ok hexec with ⟨d', b', u', hcr, rfl⟩
      rcases commitResources_ok_fields hcr with
        ⟨_, _, _, _, hb, _, _, _, _, _, _, _, hnon, _, _⟩
      subst hb
      exact Nat.le_of_lt hnon
    | claim u =>
      rcases execOp_claim_ok hexec with ⟨uc, uc', amt, _, _, rfl⟩
      exact Nat.le_refl _
    | fund s amt => rw [execOp_fund_ok hexec]
    | withdraw s amt env => rw [execOp_withdraw_ok hexec]
    | setEndTime s t => rw [execOp_setEndTime_ok hexec]
    | updBackendActive s b => rw [execOp_updBackendActive_ok hexec]
    | updBackendPubkey s pk => rw [execOp_updBackendPubkey_ok hexec]

/-- The nonce counter never decreases across an instruction sequence. -/
theorem stepsChain_nonce_mono (c : Chain) (ops : List Op) :
    c.backend.nonce_counter ≤ (stepsChain c ops).backend.nonce_counter := by
  induction ops generalizing c with
  | nil => exact Nat.le_refl _
  | cons op rest ih =>
    exact Nat.le_trans (stepChain_nonce_mono c op) (ih (stepChain c op))

/-- A distribution latched inactive can never be reactivated. -/
theorem stepChain_inactive (c : Chain) (op : Op)
    (h : c.dist.is_active = false) : (stepChain c op).dist.is_active = false := by
  unfold stepChain
  rcases hexec : execOp c op with e | c'
  · exact h
  · cases op with
    | commit a env =>
      rcases execOp_commit_ok hexec with ⟨d', b', u', hcr, rfl⟩
      rcases commitResources_ok_fields hcr with
        ⟨_, _, _, _, _, _, _, _, _, _, _, hact, _, _, _⟩
      rw [h] at hact; cases hact
    | claim u =>
      rcases execOp_claim_ok hexec with ⟨uc, uc', amt, _, _, rfl⟩
      exact h
    | fund s amt => rw [execOp_fund_ok hexec]; exact h
    | withdraw s amt env => rw [execOp_withdraw_ok hexec]; exact h
    | setEndTime s t => rw [execOp_setEndTime_ok hexec]; exact h
    | updBackendActive s b => rw [execOp_updBackendActive_ok hexec]; exact h
    | updBackendPubkey s pk => rw [execOp_updBackendPubkey_ok hexec]; exact h

theorem sumSol_update_found {users : List (Pubkey × UserCommitment)} {u : Pubkey}
    {w : UserCommitment} (v : UserCommitment) (h : findUser users u = some w) :
    sumSol (updateUser users u v) + w.sol_amount = sumSol users + v.sol_amount := by
  have := sum_update_found (fun q => q.sol_amount) users u w v h
  simpa [sumSol] using this

theorem sumSol_update_notfound {users : List (Pubkey × UserCommitment)} {u : Pubkey}
    (v : UserCommitment) (h : findUser users u = none) :
    sumSol (updateUser users u v) = sumSol users + v.sol_amount := by
  have := sum_update_notfound (fun q => q.sol_amount) users u v h
  simpa [sumSol] using this

theorem sumScore_update_found {users : List (Pubkey × UserCommitment)} {u : Pubkey}
    {w : UserCommitment} (v : UserCommitment) (h : findUser users u = some w) :
    sumScore (updateUser users u v) + w.score = sumScore users + v.score := by
  have := sum_update_found (fun q => q.score) users u w v h
  simpa [sumScore] using this

theorem sumScore_update_notfound {users : List (Pubkey × UserCommitment)} {u : Pubkey}
    (v : UserCommitment) (h : findUser users u = none) :
    sumScore (updateUser users u v) = sumScore users + v.score := by
  have := sum_update_notfound (fun q => q.score) users u v h
  simpa [sumScore] using this

theorem chainInv_init (p : InitParams) : ChainInv (initChain p) := by
  refine ⟨rfl, rfl, ?_, ?_, ?_⟩
  · intro q hq; cases hq
  · simp [initChain]
  · simp [initChain]

theorem chainInv_step (c : Chain) (op : Op) (h : ChainInv c) :
    ChainInv (stepChain c op) := by
  obtain ⟨hsol, hscore, hsc, hbsol, hbscore⟩ := h
  unfold stepChain
  rcases hexec : execOp c op with e | c'
  · exact ⟨hsol, hscore, hsc, hbsol, hbscore⟩
  · cases op with
    | commit a env =>
      rcases execOp_commit_ok hexec with ⟨d', b', u', hcr, rfl⟩
      rcases commitResources_ok_fields hcr with
        ⟨hts, htsr, _, _, _, huscore, husol, _, c10, c11, c12, _, _, _, _⟩
      have hucsc : ((findUser c.users a.user).getD freshUser).score
          = ((findUser c.users a.user).getD freshUser).sol_amount := by
        rcases hfind : findUser c.users a.user with _ | w
        · rfl
        · simpa using hsc (a.user, w) (findUser_mem hfind)
      have husol' : u'.sol_amount
          = ((findUser c.users a.user).getD freshUser).sol_amount + a.sol_amount := by
        rw [husol]
        exact Nat.mod_eq_of_lt (by rw [← hucsc]; exact c10)
      refine ⟨?_, ?_, ?_, ?_, ?_⟩
      · show d'.total_sol_raised = sumSol (updateUser c.users a.user u')
        rcases hfind : findUser c.users a.user with _ | w
        · rw [sumSol_update_notfound u' hfind, htsr, hsol, husol']
          simp [hfind, freshUser]
        · have := sumSol_update_found u' hfind
          rw [husol'] at this
          simp only [hfind, Option.getD_some] at this
          rw [htsr, hsol]
          omega
      · show d'.total_score = sumScore (updateUser c.users a.user u')
        rcases hfind : findUser c.users a.user with _ | w
        · rw [sumScore_update_notfound u' hfind, hts, hscore, huscore]
          simp [hfind, freshUser]
        · have := sumScore_update_found u' hfind
          rw [huscore] at this
          simp only [hfind, Option.getD_some] at this
          rw [hts, hscore]
          omega
      · intro q hq
        rcases mem_updateUser hq with rfl | hmem
        · show u'.score = u'.sol_amount
          rw [huscore, husol', hucsc]
        · exact hsc q hmem
      · show d'.total_sol_raised < 2 ^ 64
        rw [htsr]; exact c12
      · show d'.total_score < 2 ^ 64
        rw [hts]; exact c11
    | claim u =>
      rcases execOp_claim_ok hexec with ⟨uc, uc', amt, hfind, hcl, rfl⟩
      rcases claimTokens_ok_iff.mp hcl with ⟨_, _, _, _, rfl⟩
      refine ⟨?_, ?_, ?_, hbsol, hbscore⟩
      · show c.dist.total_sol_raised = sumSol (updateUser c.users u _)
        have := sumSol_update_found { uc with tokens_claimed := true } hfind
        simp only at this
        rw [hsol]
        omega
      · show c.dist.total_score = sumScore (updateUser c.users u _)
        have := sumScore_update_found { uc with tokens_claimed := true } hfind
        simp only at this
        rw [hscore]
        omega
      · intro q hq
        rcases mem_updateUser hq with rfl | hmem
        · simpa using hsc (u, uc) (findUser_mem hfind)
        · exact hsc q hmem
    | fund s amt =>
      rw [execOp_fund_ok hexec]
      exact ⟨hsol, hscore, hsc, hbsol, hbscore⟩
    | withdraw s amt env =>
      rw [execOp_withdraw_ok hexec]
      exact ⟨hsol, hscore, hsc, hbsol, hbscore⟩
    | setEndTime s t =>
      rw [execOp_setEndTime_ok hexec]
      exact ⟨hsol, hscore, hsc, hbsol, hbscore⟩
    | updBackendActive s b =>
      rw [execOp_updBackendActive_ok hexec]
      exact ⟨hsol, hscore, hsc, hbsol, hbscore⟩
    | updBackendPubkey s pk =>
      rw [execOp_updBackendPubkey_ok hexec]
      exact ⟨hsol, hscore, hsc, hbsol, hbscore⟩

theorem chainInv_reachable {p : InitParams} {c : Chain} (h : Reachable p c) :
    ChainInv c := by
  induction h with
  | init => exact chainInv_init p
  | step op _ ih => exact chainInv_step _ op ih

/-- C1 (code evaluation at the failing input): a user record with
tokens_claimed = true accepts a further commit_resources call, which
resets tokens_claimed to false, after which a second claim_tokens
succeeds and pays the full pro-rata share again — so tokens_claimed is
not a one-way latch under commit_resources, although claim_tokens
itself does refuse an already-claimed record with AlreadyClaimed. -/
theorem commit_after_claim_resets_flag :
    (claimTokens
        { authority := pkAuthority, total_token_pool := 1000, total_score := 50,
          is_active := true, commit_end_time := 10, rate := 0,
          target_raise_sol := 100, total_sol_raised := 50, bump := 0 }
        { user := pkUser, points := 0, sol_amount := 50, score := 50,
          tokens_claimed := true }
      = Except.error ErrorCode.AlreadyClaimed) ∧
    (commitResources
        { authority := pkAuthority, total_token_pool := 1000, total_score := 50,
          is_active := true, commit_end_time := 10, rate := 0,
          target_raise_sol := 100, total_sol_raised := 50, bump := 0 }
        backendDemo
        { user := pkUser, points := 0, sol_amount := 50, score := 50,
          tokens_claimed := true }
        { user := pkUser, points := 0, sol_amount := 0, backend_signature := sigDemo,
          nonce := 1, expiry := 5 }
        (mkEnv 0 1 5)).map (fun r => r.2.2.tokens_claimed) = Except.ok false ∧
    ((commitResources
        { authority := pkAuthority, total_token_pool := 1000, total_score := 50,
          is_active := true, commit_end_time := 10, rate := 0,
          target_raise_sol := 100, total_sol_raised := 50, bump := 0 }
        backendDemo
        { user := pkUser, points := 0, sol_amount := 50, score := 50,
          tokens_claimed := true }
        { user := pkUser, points := 0, sol_amount := 0, backend_signature := sigDemo,
          nonce := 1, expiry := 5 }
        (mkEnv 0 1 5) >>= fun r => claimTokens r.1 r.2.2).map (fun q => q.2)
      = Except.ok 1000) := by
  refine ⟨by decide, by decide, by decide⟩

theorem error_bind {α β : Type} (e : ErrorCode) (f : α → Except ErrorCode β) :
    (Except.error e >>= f) = Except.error e := rfl

theorem requiredSol_overflow {points rate : Nat} (h : 2 ^ 128 ≤ points * rate) :
    requiredSol points rate = Except.error ErrorCode.CalculationOverflow := by
  unfold requiredSol
  rw [checkedMul128_overflow h]
  rfl

theorem checkedAdd64_error_eq {a b : Nat} {e : ErrorCode}
    (h : checkedAdd64 a b = Except.error e) : e = ErrorCode.CalculationOverflow := by
  unfold checkedAdd64 at h
  split at h
  · cases h
  · cases h; rfl

/-- C10: fund_vault writes total_token_pool by plain assignment, not
accumulation: after two successive successful calls the pool counter
equals the amount of the second call. -/
theorem fund_vault_overwrites_pool :
    ∀ (dist : DistributionState) (signer : Pubkey) (a1 a2 : Nat)
      (d1 d2 : DistributionState),
      fundVault dist signer a1 = Except.ok d1 →
      fundVault d1 signer a2 = Except.ok d2 →
      d1.total_token_pool = a1 ∧ d2.total_token_pool = a2 := by
  intro dist signer a1 a2 d1 d2 h1 h2
  rcases fundVault_ok_iff.mp h1 with ⟨_, rfl⟩
  rcases fundVault_ok_iff.mp h2 with ⟨_, rfl⟩
  exact ⟨rfl, rfl⟩

/-- C10 witness: funding 7 then 9 leaves the pool at 9, not 16. -/
theorem fund_vault_overwrites_pool_witness :
    ({ distDemo with total_token_pool := 7 } : DistributionState).total_token_pool = 7 ∧
    ({ { distDemo with total_token_pool := 7 } with
        total_token_pool := 9 } : DistributionState).total_token_pool = 9 :=
  fund_vault_overwrites_pool distDemo pkAuthority 7 9 _ _ (by decide) (by decide)

/-- C9: atomic abort — an instruction that returns any error leaves
every field of every account unchanged: the chain state after the
step equals the pre-state (the modelled transaction rollback). -/
theorem atomic_abort :
    ∀ (c : Chain) (op : Op) (e : ExecError),
      execOp c op = Except.error e → stepChain c op = c := by
  intro c op e h
  unfold stepChain
  rw [h]

/-- C9 witness: an unauthorized fund_vault call mutates nothing. -/
theorem atomic_abort_witness : stepChain chainDemo (Op.fund pkUser 5) = chainDemo :=
  atomic_abort chainDemo (Op.fund pkUser 5)
    (ExecError.program ErrorCode.Unauthorized) (by decide)

/-- C2 (amended): in commit_resources the score, total_score and
total_sol_raised additions and the u128 points-times-rate
multiplication abort with CalculationOverflow when their true result
leaves the representable range; the user's points and sol_amount
additions, however, are the unchecked `+=` of the source and update
modulo 2^64 on success rather than producing CalculationOverflow. -/
theorem overflow_aborts_checked_counters :
    ∀ (dist : DistributionState) (backend : BackendAuthority) (uc : UserCommitment)
      (a : CommitArgs) (env : CommitEnv),
      backend.is_active = true →
      backend.nonce_counter < a.nonce →
      env.now < a.expiry →
      verifyEd25519Signature a.backend_signature
        (createProofMessage a.user a.points a.nonce a.expiry)
        backend.backend_pubkey env.instructions env.currentIndex = Except.ok () →
      dist.is_active = true →
      env.now < dist.commit_end_time →
      dist.total_sol_raised < dist.target_raise_sol →
      (2 ^ 128 ≤ a.points * dist.rate →
        commitResources dist backend uc a env
          = Except.error ErrorCode.CalculationOverflow) ∧
      (a.points * dist.rate < 2 ^ 128 →
        wrap64 (a.points * dist.rate / PRECISION_FACTOR) ≤ a.sol_amount →
        2 ^ 64 ≤ uc.score + a.sol_amount →
        commitResources dist backend uc a env
          = Except.error ErrorCode.CalculationOverflow) ∧
      (a.points * dist.rate < 2 ^ 128 →
        wrap64 (a.points * dist.rate / PRECISION_FACTOR) ≤ a.sol_amount →
        uc.score + a.sol_amount < 2 ^ 64 →
        2 ^ 64 ≤ dist.total_score + a.sol_amount →
        commitResources dist backend uc a env
          = Except.error ErrorCode.CalculationOverflow) ∧
      (a.points * dist.rate < 2 ^ 128 →
        wrap64 (a.points * dist.rate / PRECISION_FACTOR) ≤ a.sol_amount →
        uc.score + a.sol_amount < 2 ^ 64 →
        dist.total_score + a.sol_amount < 2 ^ 64 →
        2 ^ 64 ≤ dist.total_sol_raised + a.sol_amount →
        commitResources dist backend uc a env
          = Except.error ErrorCode.CalculationOverflow) ∧
      (∀ d2 b2 u2, commitResources dist backend uc a env = Except.ok (d2, b2, u2) →
        u2.points = (uc.points + a.points) % 2 ^ 64 ∧
        u2.sol_amount = (uc.sol_amount + a.sol_amount) % 2 ^ 64) := by
  intro dist backend uc a env h1 h2 h3 h4 h5 h6 h7
  refine ⟨?_, ?_, ?_, ?_, ?_⟩
  · intro hov
    unfold commitResources
    rw [requireCheck_true _ h1, ok_bind, requireCheck_true _ h2, ok_bind,
      requireCheck_true _ h3, ok_bind, h4, ok_bind, requireCheck_true _ h5, ok_bind,
      requireCheck_true _ h6, ok_bind, requireCheck_true _ h7, ok_bind,
      requiredSol_overflow hov, error_bind]
  · intro hlt hreq hov
    unfold commitResources
    rw [requireCheck_true _ h1, ok_bind, requireCheck_true _ h2, ok_bind,
      requireCheck_true _ h3, ok_bind, h4, ok_bind, requireCheck_true _ h5, ok_bind,
      requireCheck_true _ h6, ok_bind, requireCheck_true _ h7, ok_bind,
      requiredSol_ok.mpr ⟨hlt, rfl⟩, ok_bind, requireCheck_true _ hreq, ok_bind,
      checkedAdd64_overflow hov, error_bind]
  · intro hlt hreq hsc hov
    unfold commitResources
    rw [requireCheck_true _ h1, ok_bind, requireCheck_true _ h2, ok_bind,
      requireCheck_true _ h3, ok_bind, h4, ok_bind, requireCheck_true _ h5, ok_bind,
      requireCheck_true _ h6, ok_bind, requireCheck_true _ h7, ok_bind,
      requiredSol_ok.mpr ⟨hlt, rfl⟩, ok_bind, requireCheck_true _ hreq, ok_bind,
      checkedAdd64_ok.mpr ⟨hsc, rfl⟩, ok_bind, checkedAdd64_overflow hov, error_bind]
  · intro hlt hreq hsc hts hov
    unfold commitResources
    rw [requireCheck_true _ h1, ok_bind, requireCheck_true _ h2, ok_bind,
      requireCheck_true _ h3, ok_bind, h4, ok_bind, requireCheck_true _ h5, ok_bind,
      requireCheck_true _ h6, ok_bind, requireCheck_true _ h7, ok_bind,
      requiredSol_ok.mpr ⟨hlt, rfl⟩, ok_bind, requireCheck_true _ hreq, ok_bind,
      checkedAdd64_ok.mpr ⟨hsc, rfl⟩, ok_bind, checkedAdd64_ok.mpr ⟨hts, rfl⟩, ok_bind,
      checkedAdd64_overflow hov, error_bind]
  · intro d2 b2 u2 hok
    rcases commitResources_ok_iff.mp hok with
      ⟨_, _, _, _, _, _, _, _, _, _, _, _, hu, _, _⟩
    subst hu
    exact ⟨rfl, rfl⟩

/-- C2 counterexample: a commit whose points addition overflows u64 is
accepted and wraps the user's points to 0 instead of aborting with
CalculationOverflow. -/
theorem points_overflow_wraps_silently :
    2 ^ 64 ≤ 18446744073709551615 + 1 ∧
    (commitResources distDemo backendDemo
        { user := pkUser, points := 18446744073709551615, sol_amount := 0, score := 0,
          tokens_claimed := false }
        { user := pkUser, points := 1, sol_amount := 0, backend_signature := sigDemo,
          nonce := 1, expiry := 5 }
        (mkEnv 1 1 5)).map (fun r => r.2.2.points) = Except.ok 0 := by
  exact ⟨by decide, by decide⟩

/-- C2 witness: a commit whose user-score addition would overflow u64
aborts with CalculationOverflow. -/
theorem overflow_aborts_checked_counters_witness :
    commitResources distDemo backendDemo
      { user := pkUser, points := 0, sol_amount := 0, score := 18446744073709551615,
        tokens_claimed := false }
      { user := pkUser, points := 0, sol_amount := 1, backend_signature := sigDemo,
        nonce := 1, expiry := 5 }
      (mkEnv 0 1 5) = Except.error ErrorCode.CalculationOverflow :=
  ((overflow_aborts_checked_counters distDemo backendDemo
      { user := pkUser, points := 0, sol_amount := 0, score := 18446744073709551615,
        tokens_claimed := false }
      { user := pkUser, points := 0, sol_amount := 1, backend_signature := sigDemo,
        nonce := 1, expiry := 5 }
      (mkEnv 0 1 5) (by decide) (by decide) (by decide) (by decide) (by decide)
      (by decide) (by decide)).2.1 (by decide) (by decide) (by decide))

/-- C4 (amended): with the backend active, a commit whose nonce is at
most the current nonce_counter always fails with InvalidNonce
regardless of the signature; every accepted commit sets nonce_counter
to the supplied nonce, which strictly exceeds the old counter; the
counter is non-decreasing under every instruction; and a nonce
accepted once (or any smaller one) is never accepted again later.
The original claim fails only in that with an inactive backend the
same call errors earlier with BackendInactive, not InvalidNonce. -/
theorem nonce_ratchet_no_replay :
    (∀ (dist : DistributionState) (backend : BackendAuthority) (uc : UserCommitment)
        (a : CommitArgs) (env : CommitEnv),
      backend.is_active = true → a.nonce ≤ backend.nonce_counter →
      commitResources dist backend uc a env = Except.error ErrorCode.InvalidNonce) ∧
    (∀ (dist : DistributionState) (backend : BackendAuthority) (uc : UserCommitment)
        (a : CommitArgs) (env : CommitEnv) (d2 : DistributionState)
        (b2 : BackendAuthority) (u2 : UserCommitment),
      commitResources dist backend uc a env = Except.ok (d2, b2, u2) →
      b2.nonce_counter = a.nonce ∧ backend.nonce_counter < a.nonce) ∧
    (∀ (c : Chain) (op : Op),
      c.backend.nonce_counter ≤ (stepChain c op).backend.nonce_counter) ∧
    (∀ (c : Chain) (a : CommitArgs) (env : CommitEnv) (c1 : Chain),
      execOp c (Op.commit a env) = Except.ok c1 →
      ∀ (ops : List Op) (a2 : CommitArgs) (env2 : CommitEnv) (c2 : Chain),
        a2.nonce ≤ a.nonce →
        execOp (stepsChain c1 ops) (Op.commit a2 env2) ≠ Except.ok c2) := by
  refine ⟨?_, ?_, stepChain_nonce_mono, ?_⟩
  · intro dist backend uc a env h1 h2
    unfold commitResources
    rw [requireCheck_true _ h1, ok_bind,
      requireCheck_false _ (by omega), error_bind]
  · intro dist backend uc a env d2 b2 u2 hok
    rcases commitResources_ok_fields hok with
      ⟨_, _, _, _, hb, _, _, _, _, _, _, _, hnon, _, _⟩
    subst hb
    exact ⟨rfl, hnon⟩
  · intro c a env c1 hok ops a2 env2 c2 hle hok2
    rcases execOp_commit_ok hok with ⟨d', b', u', hcr, rfl⟩
    rcases commitResources_ok_fields hcr with
      ⟨_, _, _, _, hb, _, _, _, _, _, _, _, _, _, _⟩
    rcases execOp_commit_ok hok2 with ⟨d2', b2', u2', hcr2, _⟩
    rcases commitResources_ok_fields hcr2 with
      ⟨_, _, _, _, _, _, _, _, _, _, _, _, hnon2, _, _⟩
    have hstart : (⟨d', b', updateUser c.users a.user u'⟩ : Chain).backend.nonce_counter
        = a.nonce := by rw [hb]
    have hmono := stepsChain_nonce_mono ⟨d', b', updateUser c.users a.user u'⟩ ops
    rw [hstart] at hmono
    omega

/-- C4 counterexample: with an inactive backend, a commit whose nonce
(3) is at most the current counter (5) fails with BackendInactive, not
InvalidNonce — the original claim is not error-exact for every call. -/
theorem stale_nonce_inactive_backend_not_invalid_nonce :
    ({ backendDemo with is_active := false, nonce_counter := 5 }
        : BackendAuthority).is_active = false ∧
    (3 : Nat) ≤ ({ backendDemo with is_active := false, nonce_counter := 5 }
        : BackendAuthority).nonce_counter ∧
    commitResources distDemo { backendDemo with is_active := false, nonce_counter := 5 }
        freshUser
        { user := pkUser, points := 0, sol_amount := 0, backend_signature := sigDemo,
          nonce := 3, expiry := 5 }
        (mkEnv 0 3 5) = Except.error ErrorCode.BackendInactive ∧
    ErrorCode.BackendInactive ≠ ErrorCode.InvalidNonce := by decide

/-- C4 witness: with an active backend and counter 5, nonce 3 is
rejected with InvalidNonce. -/
theorem nonce_ratchet_no_replay_witness :
    commitResources distDemo { backendDemo with nonce_counter := 5 } freshUser
      { user := pkUser, points := 0, sol_amount := 0, backend_signature := sigDemo,
        nonce := 3, expiry := 5 }
      (mkEnv 0 3 5) = Except.error ErrorCode.InvalidNonce :=
  nonce_ratchet_no_replay.1 distDemo { backendDemo with nonce_counter := 5 } freshUser
    { user := pkUser, points := 0, sol_amount := 0, backend_signature := sigDemo,
      nonce := 3, expiry := 5 }
    (mkEnv 0 3 5) (by decide) (by decide)

/-- C5 (amended): an accepted commit always starts from below the
target and latches is_active to false exactly when the updated
total_sol_raised reaches target_raise_sol, within the same operation;
no instruction ever turns is_active back on; from a latched state
every further commit_resources attempt fails — with
DistributionNotActive whenever the backend/nonce/expiry/signature
pre-checks pass, but possibly with one of those earlier error codes
otherwise. -/
theorem target_latch :
    (∀ (dist : DistributionState) (backend : BackendAuthority) (uc : UserCommitment)
        (a : CommitArgs) (env : CommitEnv) (d2 : DistributionState)
        (b2 : BackendAuthority) (u2 : UserCommitment),
      commitResources dist backend uc a env = Except.ok (d2, b2, u2) →
      dist.total_sol_raised < dist.target_raise_sol ∧
      d2.total_sol_raised = dist.total_sol_raised + a.sol_amount ∧
      d2.target_raise_sol = dist.target_raise_sol ∧
      (d2.is_active = false ↔ d2.target_raise_sol ≤ d2.total_sol_raised)) ∧
    (∀ (c : Chain) (op : Op), c.dist.is_active = false →
      (stepChain c op).dist.is_active = false) ∧
    (∀ (dist : DistributionState) (backend : BackendAuthority) (uc : UserCommitment)
        (a : CommitArgs) (env : CommitEnv), dist.is_active = false →
      ∀ r, commitResources dist backend uc a env ≠ Except.ok r) ∧
    (∀ (dist : DistributionState) (backend : BackendAuthority) (uc : UserCommitment)
        (a : CommitArgs) (env : CommitEnv),
      dist.is_active = false →
      backend.is_active = true → backend.nonce_counter < a.nonce → env.now < a.expiry →
      verifyEd25519Signature a.backend_signature
        (createProofMessage a.user a.points a.nonce a.expiry)
        backend.backend_pubkey env.instructions env.currentIndex = Except.ok () →
      commitResources dist backend uc a env
        = Except.error ErrorCode.DistributionNotActive) := by
  refine ⟨?_, stepChain_inactive, ?_, ?_⟩
  · intro dist backend uc a env d2 b2 u2 hok
    rcases commitResources_ok_fields hok with
      ⟨_, htsr, _, htg, _, _, _, _, _, _, _, _, _, hpre, hlatch⟩
    refine ⟨hpre, htsr, htg, ?_⟩
    rw [htsr, htg]
    exact hlatch
  · intro dist backend uc a env h r hok
    obtain ⟨d2, b2, u2⟩ := r
    rcases commitResources_ok_fields hok with
      ⟨_, _, _, _, _, _, _, _, _, _, _, hact, _, _, _⟩
    rw [h] at hact
    cases hact
  · intro dist backend uc a env h h1 h2 h3 h4
    unfold commitResources
    rw [requireCheck_true _ h1, ok_bind, requireCheck_true _ h2, ok_bind,
      requireCheck_true _ h3, ok_bind, h4, ok_bind,
      requireCheck_false _ (by simp [h]), error_bind]

/-- C5 counterexample: from a latched state (is_active = false after
the target was reached) a commit attempt with a stale nonce fails with
InvalidNonce, which is neither DistributionNotActive nor
TargetSolReached — the original error disjunction is not exhaustive. -/
theorem post_latch_commit_fails_invalid_nonce :
    ({ distDemo with is_active := false, total_sol_raised := 100 }
        : DistributionState).is_active = false ∧
    ({ distDemo with is_active := false, total_sol_raised := 100 }
        : DistributionState).target_raise_sol
      ≤ ({ distDemo with is_active := false, total_sol_raised := 100 }
        : DistributionState).total_sol_raised ∧
    commitResources { distDemo with is_active := false, total_sol_raised := 100 }
        { backendDemo with nonce_counter := 5 } freshUser
        { user := pkUser, points := 0, sol_amount := 0, backend_signature := sigDemo,
          nonce := 3, expiry := 5 }
        (mkEnv 0 3 5) = Except.error ErrorCode.InvalidNonce ∧
    ErrorCode.InvalidNonce ≠ ErrorCode.DistributionNotActive ∧
    ErrorCode.InvalidNonce ≠ ErrorCode.TargetSolReached := by decide

/-- C5 witness: with all pre-checks passing, a commit against a latched
distribution fails with DistributionNotActive. -/
theorem target_latch_witness :
    commitResources { distDemo with is_active := false } backendDemo freshUser
      { user := pkUser, points := 0, sol_amount := 0, backend_signature := sigDemo,
        nonce := 1, expiry := 5 }
      (mkEnv 0 1 5) = Except.error ErrorCode.DistributionNotActive :=
  target_latch.2.2.2 { distDemo with is_active := false } backendDemo freshUser
    { user := pkUser, points := 0, sol_amount := 0, backend_signature := sigDemo,
      nonce := 1, expiry := 5 }
    (mkEnv 0 1 5) (by decide) (by decide) (by decide) (by decide) (by decide)

/-- C6 (amended): claim_tokens pays floor(total_token_pool * score /
total_score), the multiplication widened to 128 bits (exact whenever
score ≤ total_score and the u64 fields are in range, which holds in
every reachable state), and fails with NoCommitments whenever
total_score = 0 and the record is not already claimed — the
AlreadyClaimed check runs first.  The worked example pays
1_000_000_000 * 100 / 300 = 333_333_333, and three equal claimants
leave dust 1_000_000_000 − 3·333_333_333 = 1 ≤ 1. -/
theorem claim_amount_floor_guard :
    (∀ (dist : DistributionState) (uc : UserCommitment),
      uc.tokens_claimed = false → dist.total_score = 0 →
      claimTokens dist uc = Except.error ErrorCode.NoCommitments) ∧
    (∀ (dist : DistributionState) (uc : UserCommitment),
      uc.tokens_claimed = false → 0 < dist.total_score →
      uc.score ≤ dist.total_score → dist.total_score < 2 ^ 64 →
      dist.total_token_pool < 2 ^ 64 →
      claimTokens dist uc = Except.ok ({ uc with tokens_claimed := true },
        dist.total_token_pool * uc.score / dist.total_score)) ∧
    (claimTokens { distDemo with total_token_pool := 1000000000, total_score := 300 }
        { freshUser with score := 100 }).map (fun q => q.2)
      = Except.ok 333333333 ∧
    1000000000 - 3 * 333333333 ≤ 1 := by
  refine ⟨?_, ?_, by decide, by decide⟩
  · intro dist uc hcl hts
    unfold claimTokens
    rw [requireCheck_true _ hcl, ok_bind, requireCheck_false _ (by omega), error_bind]
  · intro dist uc hcl hpos hle hts hpool
    have hsc : uc.score < 2 ^ 64 := Nat.lt_of_le_of_lt hle hts
    have hmul : dist.total_token_pool * uc.score < 2 ^ 128 := by
      have h := Nat.mul_lt_mul'' hpool hsc
      have h2 : (2 : Nat) ^ 64 * 2 ^ 64 = 2 ^ 128 := by norm_num
      rw [h2] at h
      exact h
    have hq : dist.total_token_pool * uc.score / dist.total_score
        ≤ dist.total_token_pool := by
      have h1 : dist.total_token_pool * uc.score
          ≤ dist.total_token_pool * dist.total_score := Nat.mul_le_mul_left _ hle
      have h2 : dist.total_token_pool * uc.score / dist.total_score
          ≤ dist.total_token_pool * dist.total_score / dist.total_score :=
        Nat.div_le_div_right h1
      rwa [Nat.mul_div_cancel _ hpos] at h2
    apply claimTokens_ok_iff.mpr
    refine ⟨hcl, hpos, hmul, ?_, rfl⟩
    unfold wrap64
    rw [Nat.mod_eq_of_lt (Nat.lt_of_le_of_lt hq hpool)]

/-- C6 counterexample: with total_score = 0 and a record already
claimed, claim_tokens fails with AlreadyClaimed, not NoCommitments —
the AlreadyClaimed guard precedes the zero-score guard. -/
theorem claimed_record_zero_score_already_claimed :
    ({ distDemo with total_score := 0 } : DistributionState).total_score = 0 ∧
    claimTokens { distDemo with total_score := 0 }
        { freshUser with tokens_claimed := true }
      = Except.error ErrorCode.AlreadyClaimed ∧
    ErrorCode.AlreadyClaimed ≠ ErrorCode.NoCommitments := by decide

/-- C6 witness: the worked 1e9 / 100 / 300 claim pays 333_333_333 and
latches the record. -/
theorem claim_amount_floor_guard_witness :
    claimTokens { distDemo with total_token_pool := 1000000000, total_score := 300 }
        { freshUser with score := 100 }
      = Except.ok ({ user := List.replicate 32 0, points := 0, sol_amount := 0,
                     score := 100, tokens_claimed := true }, 1000000000 * 100 / 300) :=
  claim_amount_floor_guard.2.1
    { distDemo with total_token_pool := 1000000000, total_score := 300 }
    { freshUser with score := 100 }
    (by decide) (by decide) (by decide) (by decide) (by decide)

/-- C7 (amended): commit_resources computes the required contribution
as floor(points * rate / 10^9) reduced modulo 2^64 — the `as u64`
cast truncates quotients of 2^64 or more, and below that bound the
value is exactly the floor, as in the 2000 * 500_000 → 1 example —
and, with all earlier checks passing, it fails with
InsufficientSolCommitment exactly when sol_amount is strictly below
that truncated value (not the mathematical floor). -/
theorem required_sol_floor_check :
    (∀ points rate : Nat, points * rate < 2 ^ 128 →
      requiredSol points rate
        = Except.ok ((points * rate / PRECISION_FACTOR) % 2 ^ 64)) ∧
    (∀ points rate : Nat, points * rate < 2 ^ 128 →
      points * rate / PRECISION_FACTOR < 2 ^ 64 →
      requiredSol points rate = Except.ok (points * rate / PRECISION_FACTOR)) ∧
    (∀ (dist : DistributionState) (backend : BackendAuthority) (uc : UserCommitment)
        (a : CommitArgs) (env : CommitEnv),
      backend.is_active = true → backend.nonce_counter < a.nonce → env.now < a.expiry →
      verifyEd25519Signature a.backend_signature
        (createProofMessage a.user a.points a.nonce a.expiry)
        backend.backend_pubkey env.instructions env.currentIndex = Except.ok () →
      dist.is_active = true → env.now < dist.commit_end_time →
      dist.total_sol_raised < dist.target_raise_sol →
      a.points * dist.rate < 2 ^ 128 →
      (commitResources dist backend uc a env
          = Except.error ErrorCode.InsufficientSolCommitment
        ↔ a.sol_amount < wrap64 (a.points * dist.rate / PRECISION_FACTOR))) ∧
    requiredSol 2000 500000 = Except.ok 1 := by
  refine ⟨?_, ?_, ?_, by decide⟩
  · intro points rate hlt
    exact requiredSol_ok.mpr ⟨hlt, rfl⟩
  · intro points rate hlt hfl
    have h : requiredSol points rate
        = Except.ok (wrap64 (points * rate / PRECISION_FACTOR)) :=
      requiredSol_ok.mpr ⟨hlt, rfl⟩
    rw [h]
    unfold wrap64
    rw [Nat.mod_eq_of_lt hfl]
  · intro dist backend uc a env h1 h2 h3 h4 h5 h6 h7 h8
    unfold commitResources
    rw [requireCheck_true _ h1, ok_bind, requireCheck_true _ h2, ok_bind,
      requireCheck_true _ h3, ok_bind, h4, ok_bind, requireCheck_true _ h5, ok_bind,
      requireCheck_true _ h6, ok_bind, requireCheck_true _ h7, ok_bind,
      requiredSol_ok.mpr ⟨h8, rfl⟩, ok_bind]
    constructor
    · intro herr
      by_contra hge
      push_neg at hge
      rw [requireCheck_true _ hge, ok_bind] at herr
      rcases h9 : checkedAdd64 uc.score a.sol_amount with e1 | ns
      · rw [h9, error_bind] at herr
        have he := checkedAdd64_error_eq h9
        subst he
        simp at herr
      · rw [h9, ok_bind] at herr
        rcases h10 : checkedAdd64 dist.total_score a.sol_amount with e2 | nts
        · rw [h10, error_bind] at herr
          have he := checkedAdd64_error_eq h10
          subst he
          simp at herr
        · rw [h10, ok_bind] at herr
          rcases h11 : checkedAdd64 dist.total_sol_raised a.sol_amount with e3 | ntsr
          · rw [h11, error_bind] at herr
            have he := checkedAdd64_error_eq h11
            subst he
            simp at herr
          · rw [h11, ok_bind] at herr
            simp at herr
    · intro hlt
      rw [requireCheck_false _ (by omega), error_bind]

/-- C7 counterexample: with points = 10^11 and rate = 10^18 the true
required contribution is 10^20, beyond u64, and the `as u64` cast
truncates it to 7_766_279_631_452_241_920, so a commit offering only
8·10^18 — far below the mathematical floor — is accepted. -/
theorem required_sol_truncation_accepts_commit :
    (commitResources
        { distDemo with rate := 1000000000000000000, target_raise_sol := 10000000000000000000 }
        backendDemo freshUser
        { user := pkUser, points := 100000000000, sol_amount := 8000000000000000000,
          backend_signature := sigDemo, nonce := 1, expiry := 5 }
        (mkEnv 100000000000 1 5)).map (fun r => r.2.2.sol_amount)
      = Except.ok 8000000000000000000 ∧
    (8000000000000000000 : Nat)
      < 100000000000 * 1000000000000000000 / PRECISION_FACTOR := by
  exact ⟨by decide, by decide⟩

/-- C7 witness: with rate 500_000, 2000 points require 1 unit, and a
commit offering 0 fails with InsufficientSolCommitment. -/
theorem required_sol_floor_check_witness :
    commitResources { distDemo with rate := 500000 } backendDemo freshUser
      { user := pkUser, points := 2000, sol_amount := 0, backend_signature := sigDemo,
        nonce := 1, expiry := 5 }
      (mkEnv 2000 1 5) = Except.error ErrorCode.InsufficientSolCommitment :=
  (required_sol_floor_check.2.2.1 { distDemo with rate := 500000 } backendDemo freshUser
    { user := pkUser, points := 2000, sol_amount := 0, backend_signature := sigDemo,
      nonce := 1, expiry := 5 }
    (mkEnv 2000 1 5) (by decide) (by decide) (by decide) (by decide) (by decide)
    (by decide) (by decide) (by decide)).mpr (by decide)

/-- C3 (amended): the companion check scans instruction indices from
current_index − 1 down to 0 and takes the first Ed25519-program
instruction, adjacency not required; it fails when none exists or the
payload is shorter than the minimum length; and it succeeds exactly
when, in addition to the three byte-range matches of the original
claim — bytes [16,48) equal the stored backend key, [48,112) the
supplied signature, [112,end) the canonical proof message — bytes
[0,2) decode to signature count 1.  Consequently at most one message
verifies in a fixed context, so a canonicalized message differing in
even one byte from the recorded one fails. -/
theorem verify_companion_characterization :
    (∀ (sig msg pk : List Nat) (ixs : List Instruction) (cur : Nat),
      verifyEd25519Signature sig msg pk ixs cur = Except.ok () ↔
        ∃ ix, scanBack ixs cur = some ix ∧ 112 ≤ ix.data.length ∧
          readU16 ix.data = 1 ∧ (ix.data.drop 48).take 64 = sig ∧
          (ix.data.drop 16).take 32 = pk ∧ ix.data.drop 112 = msg) ∧
    (∀ (ixs : List Instruction) (n : Nat) (ix : Instruction),
      scanBack ixs n = some ix ↔
        ∃ i, i < n ∧ ixs.get? i = some ix ∧ ix.program_id = ED25519_ID ∧
          ∀ j, i < j → j < n → ∀ ixj, ixs.get? j = some ixj →
            ixj.program_id ≠ ED25519_ID) ∧
    (∀ (sig pk : List Nat) (ixs : List Instruction) (cur : Nat) (m1 m2 : List Nat),
      verifyEd25519Signature sig m1 pk ixs cur = Except.ok () →
      verifyEd25519Signature sig m2 pk ixs cur = Except.ok () → m1 = m2) := by
  refine ⟨fun sig msg pk ixs cur => verifyEd25519_ok_iff,
    fun ixs n ix => scanBack_some_iff ixs n ix, ?_⟩
  intro sig pk ixs cur m1 m2 hv1 hv2
  rcases verifyEd25519_ok_iff.mp hv1 with ⟨ix1, hs1, _, _, _, _, hm1⟩
  rcases verifyEd25519_ok_iff.mp hv2 with ⟨ix2, hs2, _, _, _, _, hm2⟩
  rw [hs1] at hs2
  injection hs2 with hix
  subst hix
  rw [← hm1, ← hm2]

/-- C3 counterexample: an instruction whose pubkey, signature and
message ranges all match and whose payload is long enough is still
rejected when its leading signature count is 2 — success is not
characterized by the three byte-range matches alone. -/
theorem matching_fields_wrong_sig_count_fails :
    (ixWrongCount.data.drop 16).take 32 = pkBackend ∧
    (ixWrongCount.data.drop 48).take 64 = sigDemo ∧
    ixWrongCount.data.drop 112 = createProofMessage pkUser 0 1 5 ∧
    112 ≤ ixWrongCount.data.length ∧
    scanBack [ixWrongCount] 1 = some ixWrongCount ∧
    verifyEd25519Signature sigDemo (createProofMessage pkUser 0 1 5) pkBackend
        [ixWrongCount] 1 = Except.error ErrorCode.Ed25519VerificationFailed := by
  decide

/-- C3 witness: a well-formed single-signature companion instruction
with matching fields verifies. -/
theorem verify_companion_characterization_witness :
    verifyEd25519Signature sigDemo (createProofMessage pkUser 0 1 5) pkBackend
        [mkIx 0 1 5] 1 = Except.ok () :=
  (verify_companion_characterization.1 sigDemo (createProofMessage pkUser 0 1 5)
      pkBackend [mkIx 0 1 5] 1).mpr
    ⟨mkIx 0 1 5, by decide, by decide, by decide, by decide, by decide, by decide⟩

/-- C8: ledger-sum invariant — in every reachable state
total_sol_raised equals the sum of the users' sol_amount fields,
total_score equals the sum of their score fields, and every user's
score equals that user's cumulative sol_amount; moreover every
accepted commit adds exactly the committed sol_amount to the user's
score and to both global tallies. -/
theorem ledger_sum_invariant :
    (∀ (p : InitParams) (c : Chain), Reachable p c →
      c.dist.total_sol_raised = sumSol c.users ∧
      c.dist.total_score = sumScore c.users ∧
      ∀ q ∈ c.users, q.2.score = q.2.sol_amount) ∧
    (∀ (dist : DistributionState) (backend : BackendAuthority) (uc : UserCommitment)
        (a : CommitArgs) (env : CommitEnv) (d2 : DistributionState)
        (b2 : BackendAuthority) (u2 : UserCommitment),
      commitResources dist backend uc a env = Except.ok (d2, b2, u2) →
      d2.total_sol_raised = dist.total_sol_raised + a.sol_amount ∧
      d2.total_score = dist.total_score + a.sol_amount ∧
      u2.score = uc.score + a.sol_amount) := by
  constructor
  · intro p c hr
    rcases chainInv_reachable hr with ⟨h1, h2, h3, _, _⟩
    exact ⟨h1, h2, h3⟩
  · intro dist backend uc a env d2 b2 u2 hok
    rcases commitResources_ok_fields hok with
      ⟨hts, htsr, _, _, _, hus, _, _, _, _, _, _, _, _, _⟩
    exact ⟨htsr, hts, hus⟩

/-- C8 witness: after one accepted commit of 7 from a fresh deployment,
the global SOL tally equals the sum over the user records. -/
theorem ledger_sum_invariant_witness :
    (stepChain (initChain initParamsDemo)
        (Op.commit { user := pkUser, points := 0, sol_amount := 7,
                     backend_signature := sigDemo, nonce := 1, expiry := 5 }
          (mkEnv 0 1 5))).dist.total_sol_raised
      = sumSol (stepChain (initChain initParamsDemo)
          (Op.commit { user := pkUser, points := 0, sol_amount := 7,
                       backend_signature := sigDemo, nonce := 1, expiry := 5 }
            (mkEnv 0 1 5))).users :=
  (ledger_sum_invariant.1 initParamsDemo _ (Reachable.step _ Reachable.init)).1
